import Mathlib

/-!
Verification of the WS2812B LED strip driver (WS2812B.c, WS2812B_Effects.c).

The pulse buffer pwmData is modelled as a total function from positions to
pulse codes; the C functions that mutate it become functions from buffer to
buffer.  Machine integers are modelled as Nat (unsigned) or Int (C int),
with explicit reductions mod 256 or mod 65536 where the C code stores a
value into a uint8_t or uint16_t, and Int.tdiv / Int.emod where C performs
int division or a conversion of a possibly negative int to an unsigned type.
-/

/-- Number of LEDs, from main.h / WS2812B.h: LED_NUM = 8. -/
abbrev LED_NUM : Nat := 8

/-- WS2812B_DATA_SIZE = 24 * LED_NUM = 192, from WS2812B.h. -/
abbrev WS2812B_DATA_SIZE : Nat := 24 * LED_NUM

/-- A single store pwmData[i] = v into the pulse buffer. -/
def bufWrite (buf : Nat → Nat) (i v : Nat) : Nat → Nat :=
  fun k => if k = i then v else buf k

/-- The GRB packed word ((uint32_t)green shifted 16) or (red shifted 8) or blue
computed by WS2812B_SetPixelRGB; the mod 256 reductions model the uint8_t
parameter types. -/
def grbWord (red green blue : Nat) : Nat :=
  (green % 256) * 2 ^ 16 + (red % 256) * 2 ^ 8 + blue % 256

/-- WS2812B_SetPixelRGB from WS2812B.c: if the pixel index is at least
LED_NUM the function returns at once; otherwise it writes the 24 pulse
codes of the pixel region, most significant bit first, 58 for a 1 bit and
29 for a 0 bit. -/
def WS2812B_SetPixelRGB (buf : Nat → Nat) (pixel red green blue : Nat) : Nat → Nat :=
  if LED_NUM ≤ pixel then buf
  else
    (List.range 24).foldl
      (fun b i =>
        bufWrite b (pixel * 24 + i)
          (if (grbWord red green blue).testBit (23 - i) then 58 else 29))
      buf

/-- WS2812B_Clear from WS2812B.c: one loop over the whole buffer writing 29
(a 0 bit) in the pixel region and 0 in the 50 reset codes. -/
def WS2812B_Clear (buf : Nat → Nat) : Nat → Nat :=
  (List.range (WS2812B_DATA_SIZE + 50)).foldl
    (fun b i => bufWrite b i (if i < WS2812B_DATA_SIZE then 29 else 0))
    buf

/-- WS2812B_SetColorRGB from WS2812B.c: WS2812B_SetPixelRGB on every led,
then a loop zeroing the 50 reset codes. -/
def WS2812B_SetColorRGB (buf : Nat → Nat) (red green blue : Nat) : Nat → Nat :=
  (List.range 50).foldl
    (fun b i => bufWrite b (WS2812B_DATA_SIZE + i) 0)
    ((List.range LED_NUM).foldl
      (fun b led => WS2812B_SetPixelRGB b led red green blue) buf)

/-- hsv_to_rgb from WS2812B.c, integer arithmetic only.  All uint8_t stores
are reduced mod 256; h is the uint16_t hue.  The switch on hi has cases 0
to 5 and hi is at most 5 because h was reduced mod 360. -/
def hsv_to_rgb (h s v : Nat) : Nat × Nat × Nat :=
  if s = 0 then
    let grey := (v * 255 / 100) % 256
    (grey, grey, grey)
  else
    let h1 := h % 360
    let hi := h1 / 60
    let f := ((h1 % 60) * 255 / 60) % 256
    let v255 := (v * 255 / 100) % 256
    let s255 := (s * 255 / 100) % 256
    let p := (v255 * (255 - s255) / 255) % 256
    let q := (v255 * (255 - f) / 255) % 256
    let t := (v255 * f / 255) % 256
    match hi with
    | 0 => (v255, t, p)
    | 1 => (q, v255, p)
    | 2 => (p, v255, t)
    | 3 => (p, q, v255)
    | 4 => (t, p, v255)
    | _ => (v255, p, q)

/-- hue2rgb from WS2812B.c.  The arithmetic q - p is done in C int, so it
may be negative; the product and the division by 43 are int operations
(division truncates toward zero, Int.tdiv) and the result, stored into the
uint8_t return value, is reduced with Int.emod 256. -/
def hue2rgb (p q t : Nat) : Nat :=
  if t < 43 then
    ((((p : Int) + Int.tdiv (((q : Int) - (p : Int)) * (t : Int)) 43)) % 256).toNat
  else if t < 128 then q
  else if t < 171 then
    ((((p : Int) + Int.tdiv (((q : Int) - (p : Int)) * ((171 : Int) - (t : Int))) 43)) % 256).toNat
  else p

/-- hsl_to_rgb from WS2812B.c.  temp_q is a uint16_t store (mod 65536); the
subtraction in the second branch cannot underflow in unsigned int because
l255 * s255 is at most (l255 + s255) * 255; q and p are uint8_t stores
(mod 256). -/
def hsl_to_rgb (h s l : Nat) : Nat × Nat × Nat :=
  if s = 0 then
    let grey := (l * 255 / 100) % 256
    (grey, grey, grey)
  else
    let h255 := (h * 255 / 360) % 256
    let l255 := (l * 255 / 100) % 256
    let s255 := (s * 255 / 100) % 256
    let temp_q :=
      (if l < 50 then l255 * (255 + s255)
       else (l255 + s255) * 255 - l255 * s255) % 65536
    let q := (temp_q / 255) % 256
    let p0 := if 255 < 2 * l255 then (2 * l255 - q) % 256 else 0
    let p := if l < 50 then (2 * l255 * (255 - s255) / 255) % 256 else p0
    (hue2rgb p q ((h255 + 85) % 256), hue2rgb p q h255, hue2rgb p q ((h255 + 171) % 256))

/-- WS2812B_SetColorHSV from WS2812B.c: convert then delegate to
WS2812B_SetColorRGB. -/
def WS2812B_SetColorHSV (buf : Nat → Nat) (hue sat val : Nat) : Nat → Nat :=
  let c := hsv_to_rgb hue sat val
  WS2812B_SetColorRGB buf c.1 c.2.1 c.2.2

/-- WS2812B_SetPixelHSV from WS2812B.c: convert then delegate to
WS2812B_SetPixelRGB. -/
def WS2812B_SetPixelHSV (buf : Nat → Nat) (pixel hue sat val : Nat) : Nat → Nat :=
  let c := hsv_to_rgb hue sat val
  WS2812B_SetPixelRGB buf pixel c.1 c.2.1 c.2.2

/-- WS2812B_SetColorHSL from WS2812B.c: convert then delegate to
WS2812B_SetColorRGB. -/
def WS2812B_SetColorHSL (buf : Nat → Nat) (hue sat light : Nat) : Nat → Nat :=
  let c := hsl_to_rgb hue sat light
  WS2812B_SetColorRGB buf c.1 c.2.1 c.2.2

/-- WS2812B_SetPixelHSL from WS2812B.c: convert then delegate to
WS2812B_SetPixelRGB. -/
def WS2812B_SetPixelHSL (buf : Nat → Nat) (pixel hue sat light : Nat) : Nat → Nat :=
  let c := hsl_to_rgb hue sat light
  WS2812B_SetPixelRGB buf pixel c.1 c.2.1 c.2.2

/-- WS2812B_Send from WS2812B.c only starts the DMA transmission of
pwmData; it does not modify the pulse buffer, so on the buffer it is the
identity. -/
def WS2812B_Send (buf : Nat → Nat) : Nat → Nat := buf

/-- Decode the 24 pulse codes of pixel region p, most significant bit
first: a 58 code is bit value 1, anything else (29 after a well formed
write) is bit value 0. -/
def decodePixel (buf : Nat → Nat) (p : Nat) : Nat :=
  Finset.sum (Finset.range 24)
    (fun j => if buf (p * 24 + j) = 58 then 2 ^ (23 - j) else 0)

/-- The buffer mutations of claim C4: clear, per pixel RGB set, set all. -/
inductive BufOp where
  | clear : BufOp
  | setPixel (pixel red green blue : Nat) : BufOp
  | setAll (red green blue : Nat) : BufOp

/-- Run one buffer operation (the corresponding C function). -/
def applyOp (buf : Nat → Nat) : BufOp → (Nat → Nat)
  | BufOp.clear => WS2812B_Clear buf
  | BufOp.setPixel p r g b => WS2812B_SetPixelRGB buf p r g b
  | BufOp.setAll r g b => WS2812B_SetColorRGB buf r g b

/-- Run a sequence of buffer operations starting from a cleared buffer. -/
def applyOps (ops : List BufOp) : Nat → Nat :=
  ops.foldl applyOp (WS2812B_Clear (fun _ => 0))

/-- Ghost record of the GRB word most recently written to each pixel:
clear writes word 0 (black) everywhere, a per pixel set writes the word of
its pixel, set all writes the word to every pixel. -/
def wordStep (w : Nat → Nat) : BufOp → (Nat → Nat)
  | BufOp.clear => fun _ => 0
  | BufOp.setPixel p' r g b => fun p => if p' = p then grbWord r g b else w p
  | BufOp.setAll r g b => fun _ => grbWord r g b

/-- The GRB word most recently written to each pixel after a sequence of
operations, starting from the cleared (all black) buffer. -/
def words (ops : List BufOp) : Nat → Nat :=
  ops.foldl wordStep (fun _ => 0)

/-- The invariant of claim C4: the 50 reset codes are zero and every pixel
region holds exactly the pulse codes of the word last written to it. -/
def BufInv (buf : Nat → Nat) (w : Nat → Nat) : Prop :=
  (∀ i : Nat, WS2812B_DATA_SIZE ≤ i → i < WS2812B_DATA_SIZE + 50 → buf i = 0) ∧
  (∀ p : Nat, p < LED_NUM → ∀ j : Nat, j < 24 →
    buf (p * 24 + j) = if (w p).testBit (23 - j) then 58 else 29)

/-- WS2812B_SetSpeed from WS2812B_Effects.c: store the uint8_t argument
into global_speed, then clamp above 100 down to 100 and below 1 up to 1.
Returns the new global_speed. -/
def WS2812B_SetSpeed (speed : Nat) : Nat :=
  let s0 := speed % 256
  let s1 := if 100 < s0 then 100 else s0
  if s1 < 1 then 1 else s1

/-- The per tick delay of WS2812B_Rainbow (and of WS2812B_RainbowChase,
WS2812B_Fire and WS2812B_PastelWave): HAL_Delay(100 - global_speed),
computed in C int. -/
def rainbowDelay (speed : Nat) : Int := 100 - (speed : Int)

/-- The per tick delay of WS2812B_Breathe: HAL_Delay(150 - global_speed). -/
def breatheDelay (speed : Nat) : Int := 150 - (speed : Int)

/-- The per tick delay of WS2812B_TheaterChase:
HAL_Delay(200 - global_speed * 2). -/
def theaterChaseDelay (speed : Nat) : Int := 200 - (speed : Int) * 2

/-- Effect enumeration ws2812b_effect_t from WS2812B_Effects.h, in
declaration order. -/
abbrev EFFECT_STATIC_COLOR : Nat := 0

/-- EFFECT_RAINBOW_CHASE of ws2812b_effect_t. -/
abbrev EFFECT_RAINBOW_CHASE : Nat := 1

/-- EFFECT_FIRE of ws2812b_effect_t. -/
abbrev EFFECT_FIRE : Nat := 2

/-- EFFECT_BREATHE of ws2812b_effect_t. -/
abbrev EFFECT_BREATHE : Nat := 3

/-- EFFECT_THEATER_CHASE of ws2812b_effect_t. -/
abbrev EFFECT_THEATER_CHASE : Nat := 4

/-- EFFECT_TWINKLE of ws2812b_effect_t. -/
abbrev EFFECT_TWINKLE : Nat := 5

/-- The fields of ws2812b_effects_t (WS2812B_Effects.h) that the auto
cycle step reads or writes. -/
structure ws2812b_effects_t where
  current_effect : Nat
  hue : Nat
  theater_frame : Nat
  auto_cycle : Bool
  cycle_duration : Nat

/-- The auto cycle step at the top of WS2812B_Effects_Handle
(WS2812B_Effects.c): if auto_cycle is set and HAL_GetTick() - last_cycle
(uint32_t wraparound subtraction; now and last_cycle are the uint32_t tick
values) exceeds cycle_duration, advance current_effect to
(current_effect + 1) mod 6, set last_cycle to now and clear the buffer;
otherwise leave everything unchanged.  The switch that follows in the C
function dispatches on current_effect without modifying it.  Returns the
new effects state, the new last_cycle and the new buffer. -/
def effectsHandleAutoCycle (e : ws2812b_effects_t) (last_cycle now : Nat)
    (buf : Nat → Nat) : ws2812b_effects_t × Nat × (Nat → Nat) :=
  if e.auto_cycle = true ∧ e.cycle_duration < (now + 2 ^ 32 - last_cycle) % 2 ^ 32 then
    ({ e with current_effect := (e.current_effect + 1) % 6 }, now, WS2812B_Clear buf)
  else
    (e, last_cycle, buf)

/-- One tick of the breathe state of WS2812B_Breathe (WS2812B_Effects.c):
breathe_val (uint8_t, so the increment wraps mod 256) moves by breathe_dir,
then the direction is negated when the new value is at least 90 or at most
10. -/
def breatheStep (s : Nat × Int) : Nat × Int :=
  let v := (((s.1 : Int) + s.2) % 256).toNat
  if 90 ≤ v ∨ v ≤ 10 then (v, -s.2) else (v, s.2)

/-- The breathe state after n ticks, from the initial static values
breathe_val = 50, breathe_dir = 1. -/
def breatheState : Nat → Nat × Int
  | 0 => (50, 1)
  | n + 1 => breatheStep (breatheState n)

/-- The inductive invariant of the breathe state: the value stays in
[10, 90], the direction is 1 or -1, and at a bound the direction already
points back inward. -/
def BreatheInv (s : Nat × Int) : Prop :=
  10 ≤ s.1 ∧ s.1 ≤ 90 ∧ (s.2 = 1 ∨ s.2 = -1) ∧
  (s.1 = 90 → s.2 = -1) ∧ (s.1 = 10 → s.2 = 1)

/-- Writing at positions pos, pos+1, ..., pos+n-1 in order: the final buffer
holds f (k - pos) on the written interval and is untouched elsewhere. -/
theorem foldl_bufWrite_range (f : Nat → Nat) (n : Nat) :
    ∀ (buf : Nat → Nat) (pos k : Nat),
    ((List.range n).foldl (fun b i => bufWrite b (pos + i) (f i)) buf) k
      = if pos ≤ k ∧ k < pos + n then f (k - pos) else buf k := by
  induction n with
  | zero =>
    intro buf pos k
    rw [List.range_zero]
    simp only [List.foldl_nil]
    rw [if_neg (by omega)]
  | succ n ih =>
    intro buf pos k
    rw [List.range_succ, List.foldl_append]
    simp only [List.foldl_cons, List.foldl_nil, bufWrite]
    by_cases hk : k = pos + n
    · rw [if_pos hk, if_pos (by omega)]
      congr 1
      omega
    · rw [if_neg hk, ih]
      by_cases h1 : pos ≤ k ∧ k < pos + n
      · rw [if_pos h1, if_pos (by omega)]
      · rw [if_neg h1, if_neg (by omega)]

/-- Pointwise description of WS2812B_Clear: 29 on the pixel region, 0 on
the 50 reset codes, untouched beyond the buffer. -/
theorem WS2812B_Clear_apply (buf : Nat → Nat) (k : Nat) :
    WS2812B_Clear buf k
      = if k < WS2812B_DATA_SIZE + 50 then
          (if k < WS2812B_DATA_SIZE then 29 else 0)
        else buf k := by
  have h : (fun (b : Nat → Nat) (i : Nat) =>
        bufWrite b i (if i < WS2812B_DATA_SIZE then 29 else 0))
      = fun (b : Nat → Nat) (i : Nat) =>
        bufWrite b (0 + i) (if i < WS2812B_DATA_SIZE then 29 else 0) := by
    funext b i
    rw [Nat.zero_add]
  rw [WS2812B_Clear, h,
    foldl_bufWrite_range (fun i => if i < WS2812B_DATA_SIZE then 29 else 0)
      (WS2812B_DATA_SIZE + 50) buf 0 k]
  simp only [Nat.zero_add, Nat.sub_zero]
  by_cases hk : k < WS2812B_DATA_SIZE + 50
  · rw [if_pos ⟨Nat.zero_le _, hk⟩, if_pos hk]
  · rw [if_neg (by omega), if_neg hk]

/-- Pointwise description of WS2812B_SetPixelRGB for an in-range pixel:
the 24 codes of that pixel region are rewritten from the GRB word, all
other positions are untouched. -/
theorem WS2812B_SetPixelRGB_apply (buf : Nat → Nat) (pixel red green blue k : Nat)
    (hp : pixel < LED_NUM) :
    WS2812B_SetPixelRGB buf pixel red green blue k
      = if pixel * 24 ≤ k ∧ k < pixel * 24 + 24 then
          (if (grbWord red green blue).testBit (23 - (k - pixel * 24)) then 58 else 29)
        else buf k := by
  rw [WS2812B_SetPixelRGB, if_neg (by omega)]
  exact foldl_bufWrite_range
    (fun i => if (grbWord red green blue).testBit (23 - i) then 58 else 29)
    24 buf (pixel * 24) k

/-- The per-led loop of WS2812B_SetColorRGB, after the first m leds: every
position below m * 24 holds the code of the GRB word, the rest of the
buffer is untouched. -/
theorem foldl_setPixel_apply (red green blue : Nat) :
    ∀ (m : Nat), m ≤ LED_NUM → ∀ (buf : Nat → Nat) (k : Nat),
    ((List.range m).foldl
        (fun b led => WS2812B_SetPixelRGB b led red green blue) buf) k
      = if k < m * 24 then
          (if (grbWord red green blue).testBit (23 - k % 24) then 58 else 29)
        else buf k := by
  intro m
  induction m with
  | zero =>
    intro _ buf k
    rw [List.range_zero]
    simp only [List.foldl_nil]
    rw [if_neg (by omega)]
  | succ m ih =>
    intro hm buf k
    rw [List.range_succ, List.foldl_append]
    simp only [List.foldl_cons, List.foldl_nil]
    rw [WS2812B_SetPixelRGB_apply _ _ _ _ _ _ (by omega), ih (by omega)]
    by_cases h1 : m * 24 ≤ k ∧ k < m * 24 + 24
    · rw [if_pos h1, if_pos (show k < (m + 1) * 24 by omega)]
      have hj : k % 24 = k - m * 24 := by omega
      rw [hj]
    · rw [if_neg h1]
      by_cases h2 : k < m * 24
      · rw [if_pos h2, if_pos (show k < (m + 1) * 24 by omega)]
      · rw [if_neg h2, if_neg (show ¬ k < (m + 1) * 24 by omega)]

/-- Pointwise description of WS2812B_SetColorRGB: the whole pixel region
is recoded from the GRB word and the 50 reset codes are zeroed. -/
theorem WS2812B_SetColorRGB_apply (buf : Nat → Nat) (red green blue k : Nat) :
    WS2812B_SetColorRGB buf red green blue k
      = if k < WS2812B_DATA_SIZE then
          (if (grbWord red green blue).testBit (23 - k % 24) then 58 else 29)
        else if k < WS2812B_DATA_SIZE + 50 then 0 else buf k := by
  have hD : WS2812B_DATA_SIZE = 192 := rfl
  have hL : LED_NUM = 8 := rfl
  rw [WS2812B_SetColorRGB,
    foldl_bufWrite_range (fun _ => 0) 50 _ WS2812B_DATA_SIZE k,
    foldl_setPixel_apply red green blue LED_NUM (Nat.le_refl _)]
  by_cases h1 : k < WS2812B_DATA_SIZE
  · rw [if_neg (show ¬ (WS2812B_DATA_SIZE ≤ k ∧ k < WS2812B_DATA_SIZE + 50) by omega),
      if_pos (show k < LED_NUM * 24 by omega), if_pos h1]
  · rw [if_neg (show ¬ k < LED_NUM * 24 by omega), if_neg h1]
    by_cases h2 : k < WS2812B_DATA_SIZE + 50
    · rw [if_pos (show WS2812B_DATA_SIZE ≤ k ∧ k < WS2812B_DATA_SIZE + 50 by omega),
        if_pos h2]
    · rw [if_neg (show ¬ (WS2812B_DATA_SIZE ≤ k ∧ k < WS2812B_DATA_SIZE + 50) by omega),
        if_neg h2]

/-- The bits of c below position n sum to c mod 2 to the n. -/
theorem sum_testBit_mod (c : Nat) :
    ∀ n : Nat,
    (Finset.sum (Finset.range n) fun i => if c.testBit i then 2 ^ i else 0)
      = c % 2 ^ n := by
  intro n
  induction n with
  | zero => simp [Nat.mod_one]
  | succ n ih =>
    rw [Finset.sum_range_succ, ih, pow_succ, Nat.mod_mul]
    simp only [Nat.testBit_to_div_mod, decide_eq_true_eq]
    by_cases h : c / 2 ^ n % 2 = 1
    · rw [if_pos h, h, Nat.mul_one]
    · have h0 : c / 2 ^ n % 2 = 0 := by omega
      rw [if_neg h, h0, Nat.mul_zero, Nat.add_zero]

/-- If the 24 codes of pixel region p are exactly the codes of a word c,
the region decodes back to c mod 2 to the 24. -/
theorem decodePixel_eq_of_region (buf : Nat → Nat) (p c : Nat)
    (hreg : ∀ j : Nat, j < 24 →
      buf (p * 24 + j) = if c.testBit (23 - j) then 58 else 29) :
    decodePixel buf p = c % 2 ^ 24 := by
  rw [decodePixel]
  have h1 : ∀ j ∈ Finset.range 24,
      (if buf (p * 24 + j) = 58 then 2 ^ (23 - j) else 0)
        = (if c.testBit (23 - j) then 2 ^ (23 - j) else 0) := by
    intro j hj
    rw [Finset.mem_range] at hj
    rw [hreg j hj]
    by_cases h : c.testBit (23 - j)
    · rw [if_pos h, if_pos h, if_pos rfl]
    · rw [if_neg h, if_neg h, if_neg (by omega)]
  rw [Finset.sum_congr rfl h1]
  have h2 := Finset.sum_range_reflect (fun i => if c.testBit i then 2 ^ i else 0) 24
  simp only [show (24 : Nat) - 1 = 23 from rfl] at h2
  rw [h2, sum_testBit_mod c 24]

/-- The GRB word fits in 24 bits. -/
theorem grbWord_lt (red green blue : Nat) : grbWord red green blue < 2 ^ 24 := by
  rw [grbWord]
  omega

/-- Clearing establishes the buffer invariant with all words zero,
whatever the starting buffer was. -/
theorem bufInv_clear (buf : Nat → Nat) : BufInv (WS2812B_Clear buf) (fun _ => 0) := by
  have hD : WS2812B_DATA_SIZE = 192 := rfl
  have hL : LED_NUM = 8 := rfl
  constructor
  · intro i h1 h2
    rw [WS2812B_Clear_apply, if_pos h2, if_neg (by omega)]
  · intro p hp j hj
    rw [WS2812B_Clear_apply,
      if_pos (show p * 24 + j < WS2812B_DATA_SIZE + 50 by omega),
      if_pos (show p * 24 + j < WS2812B_DATA_SIZE by omega)]
    simp [Nat.zero_testBit]

/-- WS2812B_SetPixelRGB preserves the buffer invariant, updating the word
of the touched pixel. -/
theorem bufInv_setPixel (buf : Nat → Nat) (w : Nat → Nat) (hinv : BufInv buf w)
    (p' red green blue : Nat) :
    BufInv (WS2812B_SetPixelRGB buf p' red green blue)
      (wordStep w (BufOp.setPixel p' red green blue)) := by
  have hD : WS2812B_DATA_SIZE = 192 := rfl
  have hL : LED_NUM = 8 := rfl
  constructor
  · intro i h1 h2
    by_cases hp' : LED_NUM ≤ p'
    · rw [WS2812B_SetPixelRGB, if_pos hp']
      exact hinv.1 i h1 h2
    · rw [WS2812B_SetPixelRGB_apply _ _ _ _ _ _ (by omega),
        if_neg (show ¬ (p' * 24 ≤ i ∧ i < p' * 24 + 24) by omega)]
      exact hinv.1 i h1 h2
  · intro p hp j hj
    by_cases hpp : p' = p
    · have hw : wordStep w (BufOp.setPixel p' red green blue) p
          = grbWord red green blue := by
        simp only [wordStep]
        exact if_pos hpp
      simp only [hw]
      rw [WS2812B_SetPixelRGB_apply _ _ _ _ _ _ (by omega),
        if_pos (show p' * 24 ≤ p * 24 + j ∧ p * 24 + j < p' * 24 + 24 by omega)]
      simp only [show 23 - (p * 24 + j - p' * 24) = 23 - j from by omega]
    · have hw : wordStep w (BufOp.setPixel p' red green blue) p = w p := by
        simp only [wordStep]
        exact if_neg hpp
      simp only [hw]
      by_cases hp' : LED_NUM ≤ p'
      · rw [WS2812B_SetPixelRGB, if_pos hp']
        exact hinv.2 p hp j hj
      · rw [WS2812B_SetPixelRGB_apply _ _ _ _ _ _ (by omega),
          if_neg (show ¬ (p' * 24 ≤ p * 24 + j ∧ p * 24 + j < p' * 24 + 24) by omega)]
        exact hinv.2 p hp j hj

/-- WS2812B_SetColorRGB establishes the buffer invariant with every word
equal to the written GRB word, whatever the starting buffer was. -/
theorem bufInv_setAll (buf : Nat → Nat) (red green blue : Nat) :
    BufInv (WS2812B_SetColorRGB buf red green blue)
      (fun _ => grbWord red green blue) := by
  have hD : WS2812B_DATA_SIZE = 192 := rfl
  have hL : LED_NUM = 8 := rfl
  constructor
  · intro i h1 h2
    rw [WS2812B_SetColorRGB_apply, if_neg (by omega), if_pos h2]
  · intro p hp j hj
    rw [WS2812B_SetColorRGB_apply,
      if_pos (show p * 24 + j < WS2812B_DATA_SIZE by omega)]
    simp only [show (p * 24 + j) % 24 = j from by omega]

/-- Running any list of operations from an invariant state keeps the
buffer invariant, tracking the last written words. -/
theorem bufInv_fold :
    ∀ (ops : List BufOp) (buf : Nat → Nat) (w : Nat → Nat), BufInv buf w →
    BufInv (ops.foldl applyOp buf) (ops.foldl wordStep w) := by
  intro ops
  induction ops with
  | nil => intro buf w h; exact h
  | cons op ops ih =>
    intro buf w h
    simp only [List.foldl_cons]
    apply ih
    cases op with
    | clear => exact bufInv_clear buf
    | setPixel p r g b => exact bufInv_setPixel buf w h p r g b
    | setAll r g b => exact bufInv_setAll buf r g b

/-- The tracked last written word always fits in 24 bits. -/
theorem words_lt :
    ∀ (ops : List BufOp) (w : Nat → Nat), (∀ p, w p < 2 ^ 24) →
    ∀ p, ops.foldl wordStep w p < 2 ^ 24 := by
  intro ops
  induction ops with
  | nil => intro w h p; exact h p
  | cons op ops ih =>
    intro w h p
    simp only [List.foldl_cons]
    apply ih
    intro p1
    cases op with
    | clear => simp only [wordStep]; omega
    | setPixel p' r g b =>
      simp only [wordStep]
      by_cases hpp : p' = p1
      · rw [if_pos hpp]; exact grbWord_lt r g b
      · rw [if_neg hpp]; exact h p1
    | setAll r g b => exact grbWord_lt r g b

/-- Truncating int division of nonnegative casts is Nat division. -/
theorem tdiv_cast_43 (a : Nat) : Int.tdiv ((a : Nat) : Int) 43 = ((a / 43 : Nat) : Int) := by
  rw [show (43 : Int) = ((43 : Nat) : Int) from rfl, ← Int.ofNat_tdiv]

/-- On inputs with p at most q (the only way the conversions of interest
call it) hue2rgb computes the four segment Nat formula. -/
theorem hue2rgb_of_le (p q t : Nat) (hpq : p ≤ q) (hq : q ≤ 255) :
    hue2rgb p q t
      = if t < 43 then p + (q - p) * t / 43
        else if t < 128 then q
        else if t < 171 then p + (q - p) * (171 - t) / 43
        else p := by
  rw [hue2rgb]
  by_cases h1 : t < 43
  · rw [if_pos h1, if_pos h1]
    have e1 : (q : Int) - p = ((q - p : Nat) : Int) := by omega
    rw [e1, ← Nat.cast_mul, tdiv_cast_43]
    obtain ⟨D, hDle, hDeq⟩ : ∃ D, D ≤ q - p ∧ (q - p) * t / 43 = D := by
      refine ⟨_, ?_, rfl⟩
      calc (q - p) * t / 43 ≤ (q - p) * 43 / 43 :=
            Nat.div_le_div_right (Nat.mul_le_mul_left _ (by omega))
        _ = q - p := Nat.mul_div_cancel _ (by omega)
    rw [hDeq]
    omega
  · rw [if_neg h1, if_neg h1]
    by_cases h2 : t < 128
    · rw [if_pos h2, if_pos h2]
    · rw [if_neg h2, if_neg h2]
      by_cases h3 : t < 171
      · rw [if_pos h3, if_pos h3]
        have e1 : (q : Int) - p = ((q - p : Nat) : Int) := by omega
        have e2 : (171 : Int) - t = ((171 - t : Nat) : Int) := by omega
        rw [e1, e2, ← Nat.cast_mul, tdiv_cast_43]
        obtain ⟨D, hDle, hDeq⟩ : ∃ D, D ≤ q - p ∧ (q - p) * (171 - t) / 43 = D := by
          refine ⟨_, ?_, rfl⟩
          calc (q - p) * (171 - t) / 43 ≤ (q - p) * 43 / 43 :=
                Nat.div_le_div_right (Nat.mul_le_mul_left _ (by omega))
            _ = q - p := Nat.mul_div_cancel _ (by omega)
        rw [hDeq]
        omega
      · rw [if_neg h3, if_neg h3]

/-- Claim C10: for all byte values p and q with p at most q and every
wheel position t up to 255, hue2rgb p q t stays in the interval [p, q];
none of the four linear segments leaves it. -/
theorem C10_hue2rgb_range (p q t : Nat) (hpq : p ≤ q) (hq : q ≤ 255)
    (ht : t ≤ 255) :
    p ≤ hue2rgb p q t ∧ hue2rgb p q t ≤ q := by
  rw [hue2rgb_of_le p q t hpq hq]
  split_ifs with h1 h2 h3
  · have hD : (q - p) * t / 43 ≤ q - p := by
      calc (q - p) * t / 43 ≤ (q - p) * 43 / 43 :=
            Nat.div_le_div_right (Nat.mul_le_mul_left _ (by omega))
        _ = q - p := Nat.mul_div_cancel _ (by omega)
    omega
  · exact ⟨hpq, Nat.le_refl q⟩
  · have hD : (q - p) * (171 - t) / 43 ≤ q - p := by
      calc (q - p) * (171 - t) / 43 ≤ (q - p) * 43 / 43 :=
            Nat.div_le_div_right (Nat.mul_le_mul_left _ (by omega))
        _ = q - p := Nat.mul_div_cancel _ (by omega)
    omega
  · exact ⟨Nat.le_refl p, hpq⟩

/-- Witness for claim C10 at p = 10, q = 200, t = 30. -/
theorem C10_hue2rgb_range_witness :
    10 ≤ 200 ∧ 200 ≤ 255 ∧ 30 ≤ 255 ∧
    (10 ≤ hue2rgb 10 200 30 ∧ hue2rgb 10 200 30 ≤ 200) :=
  ⟨by decide, by decide, by decide,
    C10_hue2rgb_range 10 200 30 (by decide) (by decide) (by decide)⟩

/-- Claim C8: for every pixel index at least the strip length LED_NUM = 8
and every color argument, the per pixel RGB, HSV and HSL setters return
the pulse buffer unchanged. -/
theorem C8_out_of_range_noop (buf : Nat → Nat) (pixel : Nat)
    (hp : LED_NUM ≤ pixel) (red green blue hue sat val light : Nat) :
    WS2812B_SetPixelRGB buf pixel red green blue = buf ∧
    WS2812B_SetPixelHSV buf pixel hue sat val = buf ∧
    WS2812B_SetPixelHSL buf pixel hue sat light = buf := by
  refine ⟨?_, ?_, ?_⟩ <;>
    simp [WS2812B_SetPixelHSV, WS2812B_SetPixelHSL, WS2812B_SetPixelRGB, hp]

/-- Witness for claim C8 at pixel index 8 on the zero buffer. -/
theorem C8_out_of_range_noop_witness :
    LED_NUM ≤ 8 ∧
    (WS2812B_SetPixelRGB (fun _ => 0) 8 1 2 3 = (fun _ => 0) ∧
     WS2812B_SetPixelHSV (fun _ => 0) 8 120 100 50 = (fun _ => 0) ∧
     WS2812B_SetPixelHSL (fun _ => 0) 8 120 100 50 = (fun _ => 0)) :=
  ⟨by decide, C8_out_of_range_noop (fun _ => 0) 8 (by decide) 1 2 3 120 100 50 50⟩

/-- Counterexample to claim C7: the HSL conversion of hue 0, saturation
100, lightness 50 has red channel exactly 255, not strictly below 255. -/
theorem C7_counterexample : ¬ ((hsl_to_rgb 0 100 50).1 < 255) := by decide

/-- Claim C7 (amended): HSL(0,100,50) yields the saturated mid lightness
red (255, 0, 0) and HSL(240,100,50) yields the saturated blue (0, 5, 255);
the peak channel equals 255 (it is not strictly below 255), and the other
channel values are exactly those of the four segment hue2rgb formula. -/
theorem C7_hsl_fixtures :
    hsl_to_rgb 0 100 50 = (255, 0, 0) ∧ hsl_to_rgb 240 100 50 = (0, 5, 255) := by
  decide

/-- Counterexample to claim C3: at saturation 200 (within [0,200]) the HSV
conversion differs from the conversion at the clamped saturation 100,
because the code does not clamp: the uint8_t intermediate s255 wraps
mod 256 instead. -/
theorem C3_counterexample :
    ¬ (hsv_to_rgb 0 200 100 = hsv_to_rgb 0 (min 200 100) (min 100 100)) := by
  decide

/-- Claim C3 (amended): only on saturation and value (or lightness) already
in [0,100] does the conversion output equal the output for the
clamped to [0,100] arguments, because there clamping is the identity; the
code performs no clamping, so above 100 the equality fails. -/
theorem C3_clamped_identity (h s v l : Nat) (hs : s ≤ 100) (hv : v ≤ 100)
    (hl : l ≤ 100) :
    hsv_to_rgb h s v = hsv_to_rgb h (min s 100) (min v 100) ∧
    hsl_to_rgb h s l = hsl_to_rgb h (min s 100) (min l 100) := by
  rw [Nat.min_eq_left hs, Nat.min_eq_left hv, Nat.min_eq_left hl]
  exact ⟨rfl, rfl⟩

/-- Witness for claim C3 (amended) at h = 30, s = 80, v = 90, l = 40. -/
theorem C3_clamped_identity_witness :
    80 ≤ 100 ∧ 90 ≤ 100 ∧ 40 ≤ 100 ∧
    (hsv_to_rgb 30 80 90 = hsv_to_rgb 30 (min 80 100) (min 90 100) ∧
     hsl_to_rgb 30 80 40 = hsl_to_rgb 30 (min 80 100) (min 40 100)) :=
  ⟨by decide, by decide, by decide,
    C3_clamped_identity 30 80 90 40 (by decide) (by decide) (by decide)⟩

/-- Counterexample to claim C2: hue 360 lies in [0,1080) with in range
saturation and lightness, but the HSL conversion output differs from the
output at hue 360 mod 360 = 0, because hsl_to_rgb never reduces its hue
mod 360 (the wheel value h255 = hue * 255 / 360 wraps mod 256 instead). -/
theorem C2_counterexample :
    360 < 1080 ∧ ¬ (hsl_to_rgb 360 100 50 = hsl_to_rgb (360 % 360) 100 50) := by
  decide

/-- Claim C2 (amended): for every hue in [0,1080) and in range saturation
and value, the HSV conversion output equals the output at hue mod 360 (the
code reduces the hue mod 360 itself); the HSL conversion satisfies this
only when the hue is already below 360, where the reduction is the
identity. -/
theorem C2_hue_mod_360 (h s v l : Nat) (_hh : h < 1080) (_hs : s ≤ 100)
    (_hv : v ≤ 100) (_hl : l ≤ 100) :
    hsv_to_rgb h s v = hsv_to_rgb (h % 360) s v ∧
    (h < 360 → hsl_to_rgb h s l = hsl_to_rgb (h % 360) s l) := by
  constructor
  · simp only [hsv_to_rgb]
    by_cases h0 : s = 0
    · rw [if_pos h0, if_pos h0]
    · rw [if_neg h0, if_neg h0]
      rw [show h % 360 % 360 = h % 360 from by omega]
  · intro h360
    rw [Nat.mod_eq_of_lt h360]

/-- Witness for claim C2 (amended) at h = 480, s = 100, v = 50, l = 50. -/
theorem C2_hue_mod_360_witness :
    480 < 1080 ∧ 100 ≤ 100 ∧ 50 ≤ 100 ∧ 50 ≤ 100 ∧
    (hsv_to_rgb 480 100 50 = hsv_to_rgb (480 % 360) 100 50 ∧
     (480 < 360 → hsl_to_rgb 480 100 50 = hsl_to_rgb (480 % 360) 100 50)) :=
  ⟨by decide, by decide, by decide, by decide,
    C2_hue_mod_360 480 100 50 50 (by decide) (by decide) (by decide) (by decide)⟩

/-- Counterexample to claim C5: at the clamped speed value 100 (which the
setter itself produces for input 100) the per tick delay of
WS2812B_Rainbow is 100 - 100 = 0, which is not strictly positive. -/
theorem C5_counterexample :
    WS2812B_SetSpeed 100 = 100 ∧ ¬ (0 < rainbowDelay (WS2812B_SetSpeed 100)) := by
  decide

/-- Claim C5 (amended): the speed setter clamps into [1,100]; for every
clamped speed the per tick delays 100 - speed (rainbow, rainbow chase,
fire, pastel wave), 150 - speed (breathe) and 200 - 2 * speed (theater
chase) are nonnegative, the breathe delay is strictly positive, and all
are strictly positive whenever the speed is below 100. -/
theorem C5_speed_clamp_delays (x s : Nat) (h1 : 1 ≤ s) (h2 : s ≤ 100) :
    (1 ≤ WS2812B_SetSpeed x ∧ WS2812B_SetSpeed x ≤ 100) ∧
    0 ≤ rainbowDelay s ∧ 0 < breatheDelay s ∧ 0 ≤ theaterChaseDelay s ∧
    (s < 100 → 0 < rainbowDelay s ∧ 0 < theaterChaseDelay s) := by
  refine ⟨?_, ?_, ?_, ?_, ?_⟩
  · simp only [WS2812B_SetSpeed]
    split_ifs <;> omega
  · simp only [rainbowDelay]
    omega
  · simp only [breatheDelay]
    omega
  · simp only [theaterChaseDelay]
    omega
  · intro hlt
    constructor
    · simp only [rainbowDelay]
      omega
    · simp only [theaterChaseDelay]
      omega

/-- Witness for claim C5 (amended) at setter input 250 and speed 40. -/
theorem C5_speed_clamp_delays_witness :
    1 ≤ 40 ∧ 40 ≤ 100 ∧
    ((1 ≤ WS2812B_SetSpeed 250 ∧ WS2812B_SetSpeed 250 ≤ 100) ∧
     0 ≤ rainbowDelay 40 ∧ 0 < breatheDelay 40 ∧ 0 ≤ theaterChaseDelay 40 ∧
     (40 < 100 → 0 < rainbowDelay 40 ∧ 0 < theaterChaseDelay 40)) :=
  ⟨by decide, by decide, C5_speed_clamp_delays 250 40 (by decide) (by decide)⟩

/-- Claim C6: the auto cycle step of WS2812B_Effects_Handle.  When auto
cycle is on and the elapsed time since the last transition exceeds the
cycle duration, the engine advances the effect to (current + 1) mod 6,
clears the buffer and resets the timer to now; otherwise everything,
in particular the current effect, is unchanged.  The successor map mod 6
realises the fixed order StaticColor, RainbowChase, Fire, Breathe,
TheaterChase, Twinkle and back to StaticColor. -/
theorem C6_auto_cycle_step (e : ws2812b_effects_t) (last_cycle now : Nat)
    (buf : Nat → Nat) (hnow : now < 2 ^ 32) (hle : last_cycle ≤ now) :
    (e.auto_cycle = true → e.cycle_duration < now - last_cycle →
      effectsHandleAutoCycle e last_cycle now buf
        = ({ e with current_effect := (e.current_effect + 1) % 6 }, now,
            WS2812B_Clear buf)) ∧
    ((e.auto_cycle = true → now - last_cycle ≤ e.cycle_duration) →
      effectsHandleAutoCycle e last_cycle now buf = (e, last_cycle, buf)) ∧
    ((EFFECT_STATIC_COLOR + 1) % 6 = EFFECT_RAINBOW_CHASE ∧
     (EFFECT_RAINBOW_CHASE + 1) % 6 = EFFECT_FIRE ∧
     (EFFECT_FIRE + 1) % 6 = EFFECT_BREATHE ∧
     (EFFECT_BREATHE + 1) % 6 = EFFECT_THEATER_CHASE ∧
     (EFFECT_THEATER_CHASE + 1) % 6 = EFFECT_TWINKLE ∧
     (EFFECT_TWINKLE + 1) % 6 = EFFECT_STATIC_COLOR) := by
  have helapsed : (now + 2 ^ 32 - last_cycle) % 2 ^ 32 = now - last_cycle := by
    omega
  refine ⟨?_, ?_, by decide⟩
  · intro ha hd
    rw [effectsHandleAutoCycle, if_pos ⟨ha, by rw [helapsed]; exact hd⟩]
  · intro hnd
    rw [effectsHandleAutoCycle, if_neg ?_]
    rintro ⟨ha, hlt⟩
    rw [helapsed] at hlt
    have := hnd ha
    omega

/-- Witness for claim C6 with auto cycle on, duration 5, last transition
at tick 0, current tick 10, on the zero buffer. -/
theorem C6_auto_cycle_step_witness :
    10 < 2 ^ 32 ∧ 0 ≤ 10 ∧
    (((⟨2, 0, 0, true, 5⟩ : ws2812b_effects_t).auto_cycle = true →
      (⟨2, 0, 0, true, 5⟩ : ws2812b_effects_t).cycle_duration < 10 - 0 →
      effectsHandleAutoCycle ⟨2, 0, 0, true, 5⟩ 0 10 (fun _ => 0)
        = (⟨(2 + 1) % 6, 0, 0, true, 5⟩, 10, WS2812B_Clear (fun _ => 0))) ∧
    (((⟨2, 0, 0, true, 5⟩ : ws2812b_effects_t).auto_cycle = true →
        10 - 0 ≤ (⟨2, 0, 0, true, 5⟩ : ws2812b_effects_t).cycle_duration) →
      effectsHandleAutoCycle ⟨2, 0, 0, true, 5⟩ 0 10 (fun _ => 0)
        = (⟨2, 0, 0, true, 5⟩, 0, fun _ => 0)) ∧
    ((EFFECT_STATIC_COLOR + 1) % 6 = EFFECT_RAINBOW_CHASE ∧
     (EFFECT_RAINBOW_CHASE + 1) % 6 = EFFECT_FIRE ∧
     (EFFECT_FIRE + 1) % 6 = EFFECT_BREATHE ∧
     (EFFECT_BREATHE + 1) % 6 = EFFECT_THEATER_CHASE ∧
     (EFFECT_THEATER_CHASE + 1) % 6 = EFFECT_TWINKLE ∧
     (EFFECT_TWINKLE + 1) % 6 = EFFECT_STATIC_COLOR)) :=
  ⟨by decide, by decide,
    C6_auto_cycle_step ⟨2, 0, 0, true, 5⟩ 0 10 (fun _ => 0)
      (by decide) (by decide)⟩

/-- One breathe tick preserves the breathe invariant. -/
theorem breatheStep_inv (s : Nat × Int) (h : BreatheInv s) :
    BreatheInv (breatheStep s) := by
  obtain ⟨h1, h2, h3, h4, h5⟩ := h
  rcases h3 with h3 | h3
  · have h90 : s.1 ≠ 90 := by
      intro hh
      rw [h4 hh] at h3
      exact absurd h3 (by decide)
    have hv : (((s.1 : Int) + s.2) % 256).toNat = s.1 + 1 := by
      rw [h3]
      omega
    simp only [breatheStep, hv]
    by_cases hc : 90 ≤ s.1 + 1 ∨ s.1 + 1 ≤ 10
    · rw [if_pos hc]
      have h89 : s.1 = 89 := by omega
      refine ⟨by omega, by omega, Or.inr (by rw [h3]), ?_, ?_⟩
      · intro _
        rw [h3]
      · intro hh
        exfalso
        omega
    · rw [if_neg hc]
      push_neg at hc
      refine ⟨by omega, by omega, Or.inl h3, ?_, ?_⟩
      · intro hh
        exfalso
        omega
      · intro _
        exact h3
  · have h10 : s.1 ≠ 10 := by
      intro hh
      rw [h5 hh] at h3
      exact absurd h3 (by decide)
    have hv : (((s.1 : Int) + s.2) % 256).toNat = s.1 - 1 := by
      rw [h3]
      omega
    simp only [breatheStep, hv]
    by_cases hc : 90 ≤ s.1 - 1 ∨ s.1 - 1 ≤ 10
    · rw [if_pos hc]
      have h11 : s.1 = 11 := by omega
      refine ⟨by omega, by omega, Or.inl (by rw [h3]; norm_num), ?_, ?_⟩
      · intro hh
        exfalso
        omega
      · intro _
        rw [h3]
        norm_num
    · rw [if_neg hc]
      push_neg at hc
      refine ⟨by omega, by omega, Or.inr h3, ?_, ?_⟩
      · intro hh
        exfalso
        omega
      · intro hh
        exfalso
        omega

/-- The breathe invariant holds at every tick count. -/
theorem breatheState_inv (n : Nat) : BreatheInv (breatheState n) := by
  induction n with
  | zero =>
    refine ⟨by norm_num [breatheState], by norm_num [breatheState],
      Or.inl (by norm_num [breatheState]), ?_, ?_⟩
    · intro h
      norm_num [breatheState] at h
    · intro _
      norm_num [breatheState]
  | succ n ih => exact breatheStep_inv (breatheState n) ih

/-- Claim C9: from the initial breathe state (value 50, direction +1),
after every tick the breathe value stays within [10, 90], the direction is
+1 or -1, and the next tick inverts the direction exactly when it reaches
a bound (10 or 90). -/
theorem C9_breathe_invariant (n : Nat) :
    10 ≤ (breatheState n).1 ∧ (breatheState n).1 ≤ 90 ∧
    ((breatheState n).2 = 1 ∨ (breatheState n).2 = -1) ∧
    ((breatheStep (breatheState n)).2 = -(breatheState n).2 ↔
      ((breatheStep (breatheState n)).1 = 10 ∨
       (breatheStep (breatheState n)).1 = 90)) := by
  obtain ⟨h1, h2, h3, h4, h5⟩ := breatheState_inv n
  refine ⟨h1, h2, h3, ?_⟩
  rcases h3 with h3 | h3
  · have h90 : (breatheState n).1 ≠ 90 := by
      intro hh
      rw [h4 hh] at h3
      exact absurd h3 (by decide)
    have hv : ((((breatheState n).1 : Int) + (breatheState n).2) % 256).toNat
        = (breatheState n).1 + 1 := by
      rw [h3]
      omega
    simp only [breatheStep, hv]
    by_cases hc : 90 ≤ (breatheState n).1 + 1 ∨ (breatheState n).1 + 1 ≤ 10
    · rw [if_pos hc]
      constructor
      · intro _
        right
        omega
      · intro _
        rfl
    · rw [if_neg hc]
      push_neg at hc
      constructor
      · intro hh
        rw [h3] at hh
        exact absurd hh (by decide)
      · intro hh
        exfalso
        omega
  · have h10 : (breatheState n).1 ≠ 10 := by
      intro hh
      rw [h5 hh] at h3
      exact absurd h3 (by decide)
    have hv : ((((breatheState n).1 : Int) + (breatheState n).2) % 256).toNat
        = (breatheState n).1 - 1 := by
      rw [h3]
      omega
    simp only [breatheStep, hv]
    by_cases hc : 90 ≤ (breatheState n).1 - 1 ∨ (breatheState n).1 - 1 ≤ 10
    · rw [if_pos hc]
      constructor
      · intro _
        left
        omega
      · intro _
        rfl
    · rw [if_neg hc]
      push_neg at hc
      constructor
      · intro hh
        rw [h3] at hh
        exact absurd hh (by decide)
      · intro hh
        exfalso
        omega

/-- Claim C4: starting from a cleared buffer, after every finite sequence
of clear, per pixel RGB set and set all operations, the last 50 pulse
codes are exactly zero, and every pixel region in [0,8) decodes (58 to
bit 1, 29 to bit 0, most significant bit first) to the GRB packed word of
the color most recently written to that pixel. -/
theorem C4_buffer_invariant (ops : List BufOp) :
    (∀ i : Fin 50, applyOps ops (WS2812B_DATA_SIZE + i) = 0) ∧
    (∀ p : Fin 8, decodePixel (applyOps ops) p = words ops p) := by
  have hinv : BufInv (applyOps ops) (words ops) := by
    rw [applyOps, words]
    exact bufInv_fold ops _ _ (bufInv_clear _)
  constructor
  · intro i
    exact hinv.1 (WS2812B_DATA_SIZE + i) (by omega) (by omega)
  · intro p
    have hv : ∀ p1, (fun _ : Nat => 0) p1 < 2 ^ 24 := by
      intro p1
      norm_num
    have hlt : words ops p < 2 ^ 24 := words_lt ops _ hv p
    rw [decodePixel_eq_of_region (applyOps ops) p (words ops p)
        (fun j hj => hinv.2 p p.isLt j hj),
      Nat.mod_eq_of_lt hlt]

/-- Counterexample to claim C1: with the strip freshly cleared, after the
set all HSV call with hue 120, saturation 100, value 50 and the commit
(WS2812B_Send), pixel region 0 does not decode to the GRB word of
RGB (0,128,0): the conversion yields value channel 50 * 255 / 100 = 127,
not 128. -/
theorem C1_counterexample :
    ¬ (decodePixel
        (WS2812B_Send (WS2812B_SetColorHSV (WS2812B_Clear fun _ => 0) 120 100 50)) 0
      = grbWord 0 128 0) := by
  have hc : hsv_to_rgb 120 100 50 = (0, 127, 0) := by decide
  show ¬ (decodePixel
      (WS2812B_SetColorRGB (WS2812B_Clear fun _ => 0)
        (hsv_to_rgb 120 100 50).1 (hsv_to_rgb 120 100 50).2.1
        (hsv_to_rgb 120 100 50).2.2) 0
    = grbWord 0 128 0)
  rw [hc]
  have hinv := bufInv_setAll (WS2812B_Clear fun _ => 0) 0 127 0
  rw [decodePixel_eq_of_region _ 0 (grbWord 0 127 0)
      (fun j hj => hinv.2 0 (by decide) j hj)]
  decide

/-- Claim C1 (amended): calling the set all HSV operation with hue 120,
saturation 100, value 50 on the 8 pixel strip, then committing, produces
a pulse buffer in which every one of the 8 pixel regions decodes (58 to
bit 1, 29 to bit 0, most significant bit first) to the GRB packed word of
RGB (0,127,0) - the integer formula 50 * 255 / 100 gives 127, not 128 -
followed by 50 trailing zero reset codes.  This holds from any starting
buffer. -/
theorem C1_set_all_hsv_commit (buf0 : Nat → Nat) (p : Fin 8) (i : Fin 50) :
    decodePixel (WS2812B_Send (WS2812B_SetColorHSV buf0 120 100 50)) p
      = grbWord 0 127 0 ∧
    WS2812B_Send (WS2812B_SetColorHSV buf0 120 100 50) (WS2812B_DATA_SIZE + i)
      = 0 := by
  have hc : hsv_to_rgb 120 100 50 = (0, 127, 0) := by decide
  have hs : WS2812B_Send (WS2812B_SetColorHSV buf0 120 100 50)
      = WS2812B_SetColorRGB buf0 0 127 0 := by
    show WS2812B_SetColorRGB buf0 (hsv_to_rgb 120 100 50).1
        (hsv_to_rgb 120 100 50).2.1 (hsv_to_rgb 120 100 50).2.2
      = WS2812B_SetColorRGB buf0 0 127 0
    rw [hc]
  rw [hs]
  have hinv := bufInv_setAll buf0 0 127 0
  constructor
  · rw [decodePixel_eq_of_region _ p (grbWord 0 127 0)
        (fun j hj => hinv.2 p p.isLt j hj)]
    exact Nat.mod_eq_of_lt (grbWord_lt 0 127 0)
  · exact hinv.1 (WS2812B_DATA_SIZE + i) (by omega) (by omega)
